import Mathlib

/-!
Verification of the tariff-analysis ingestion core.

This file shallowly embeds the repository's code:
  - src/comparison/models.py                              (cost calculator, data model)
  - src/comparison/management/commands/parse_tariffs.py   (extractors, adapters, batch job)

Numbers are embedded as exact rationals: the Python code mixes int, float and
Decimal, and every value appearing in the claims is an exact small rational, so
the embedding uses one numeric type for all of them.  Text is embedded as
List Char; the regular expressions of the source, which are all of a fixed
simple shape (literals, digit runs, an optional separator class, whitespace
runs, small alternations), are embedded as explicit scanners with Python's
leftmost-search and greedy semantics, restricted to ASCII digits and the
whitespace characters of the texts involved.
-/

/-- Python regex class backslash-d, restricted to the ASCII digits that occur in
the parsed pages. -/
def isDigitCh (c : Char) : Bool := 48 ≤ c.toNat && c.toNat ≤ 57

/-- Python regex class backslash-s, restricted to the whitespace characters
that occur in the parsed texts (space, tab, newline, carriage return, vertical
tab, form feed, and the no-break space U+00A0). -/
def isPySpace (c : Char) : Bool :=
  c.toNat == 32 || c.toNat == 9 || c.toNat == 10 || c.toNat == 13 ||
  c.toNat == 11 || c.toNat == 12 || c.toNat == 160

/-- The separator class of the price regex at parse_tariffs.py line 131. -/
def isSepCh (c : Char) : Bool := isPySpace c || c == ',' || c == '.'

/-- Python str.lower, restricted to ASCII letters and the Cyrillic alphabet
(U+0410..U+042F maps to U+0430..U+044F, U+0401 to U+0451), which covers every
character of the texts the command handles. -/
def pyLowerChar (c : Char) : Char :=
  if 65 ≤ c.toNat && c.toNat ≤ 90 then Char.ofNat (c.toNat + 32)
  else if 1040 ≤ c.toNat && c.toNat ≤ 1071 then Char.ofNat (c.toNat + 32)
  else if c.toNat == 1025 then Char.ofNat 1105
  else c

/-- Python str.lower over a whole text. -/
def pyLower (s : List Char) : List Char := s.map pyLowerChar

/-- Value of a run of ASCII digits, most significant first. -/
def digitsToNat (s : List Char) : Nat := s.foldl (fun n c => 10 * n + (c.toNat - 48)) 0

/-- If s starts with the literal pat, returns the rest of s after pat. -/
def dropLit : List Char → List Char → Option (List Char)
  | [], s => some s
  | _ :: _, [] => none
  | p :: ps, c :: cs => if p == c then dropLit ps cs else none

/-- Whether s starts with the literal pat. -/
def listStartsWith (pat s : List Char) : Bool := (dropLit pat s).isSome

/-- Whether pat occurs somewhere in s (Python: pat in s). -/
def listHasSubstr (pat : List Char) : List Char → Bool
  | [] => listStartsWith pat []
  | c :: rest => listStartsWith pat (c :: rest) || listHasSubstr pat rest

/-- Helper for remove_tags: the text after the nearest closing angle bracket,
provided no newline comes first (Python's dot does not match newline). -/
def findGt : List Char → Option (List Char)
  | [] => none
  | c :: rest => if c == '>' then some rest
                 else if c == '\n' then none
                 else findGt rest

/-- Fuel-driven body of remove_tags; fuel at least the length of the text makes
it total, and each step consumes at least one character. -/
def removeTagsAux : Nat → List Char → List Char
  | _, [] => []
  | 0, s => s
  | fuel + 1, c :: rest =>
    if c == '<' then
      match findGt rest with
      | some rest' => removeTagsAux fuel rest'
      | none => c :: removeTagsAux fuel rest
    else c :: removeTagsAux fuel rest

/-- parse_tariffs.py lines 125-126: re.sub of a lazy angle-bracket group with
the empty string.  A bracket pair not closed before a newline or the end of the
text is left in place. -/
def remove_tags (s : List Char) : List Char := removeTagsAux s.length s

/-- Fuel-driven body of replaceSub. -/
def replaceSubAux (pat rep : List Char) : Nat → List Char → List Char
  | _, [] => []
  | 0, s => s
  | fuel + 1, c :: rest =>
    match dropLit pat (c :: rest) with
    | some r => rep ++ replaceSubAux pat rep fuel r
    | none => c :: replaceSubAux pat rep fuel rest

/-- Python str.replace for a nonempty pattern: left-to-right, non-overlapping. -/
def replaceSub (pat rep s : List Char) : List Char := replaceSubAux pat rep s.length s

/-- Python str.replace of one character by another. -/
def replaceCh (a b : Char) (s : List Char) : List Char :=
  s.map fun c => if c == a then b else c

/-- Strip leading and trailing whitespace. -/
def stripWs (s : List Char) : List Char :=
  ((s.dropWhile isPySpace).reverse.dropWhile isPySpace).reverse

/-- Numeric-string parsing shared by the model of Python's float() and
Decimal() constructors on the strings this command feeds them: optional
surrounding whitespace, then digits with at most one decimal point and at
least one digit.  (Signs, exponents and underscores never occur in the
regex groups of this command.)  Returns none where Python raises. -/
def numParse (s : List Char) : Option ℚ :=
  let t := stripWs s
  let ip := t.takeWhile isDigitCh
  let r := t.dropWhile isDigitCh
  match r with
  | [] => if ip.isEmpty then none else some (digitsToNat ip : ℚ)
  | c :: rest =>
    if c == '.' then
      let fp := rest.takeWhile isDigitCh
      let r2 := rest.dropWhile isDigitCh
      if r2.isEmpty && !(ip.isEmpty && fp.isEmpty) then
        some ((digitsToNat ip : ℚ) + (digitsToNat fp : ℚ) / ((10 : ℚ) ^ fp.length))
      else none
    else none

/- Pattern literals of parse_tariffs.py. -/

def nbspPat : List Char := ("&nbsp;").toList
def spacePat : List Char := (" ").toList
def bezlimitGb : List Char := ("безлимит гб").toList
def neogr : List Char := ("неограничен").toList
def gbU : List Char := ("гб").toList
def gbLat : List Char := ("gb").toList
def gigabait : List Char := ("гигабайт").toList
def tbU : List Char := ("тб").toList
def minutU : List Char := ("минут").toList
def minShortU : List Char := ("мин").toList
def minLat : List Char := ("min").toList
def bezlimitMin : List Char := ("безлимит минут").toList

/-- Matcher at one position for the regex shape digits, optional whitespace,
then one of the given unit literals; this is the shape of the patterns
(backslash-d plus)(backslash-s star)(unit alternation) at lines 150-152 and
174-175.  Greedy matching is exact here: the unit literals start with
non-digit, non-space characters, so no backtracking can succeed where the
maximal munch fails.  Returns the digit group. -/
def matchNumUnitsAt (units : List (List Char)) (s : List Char) : Option (List Char) :=
  let d1 := s.takeWhile isDigitCh
  if d1.isEmpty then none
  else
    let r := (s.dropWhile isDigitCh).dropWhile isPySpace
    if units.any (fun u => listStartsWith u r) then some d1 else none

/-- re.search for the digits-whitespace-unit shape: leftmost position wins. -/
def scanNumUnits (units : List (List Char)) : List Char → Option (List Char)
  | [] => none
  | c :: rest =>
    match matchNumUnitsAt units (c :: rest) with
    | some g => some g
    | none => scanNumUnits units rest

/-- Tail of pattern 2 of extract_data_gb after the literal неограничен:
(digits)(optional one of whitespace, comma, period)(digits)(whitespace star)
then гб, gb or гигабайт.  The missing comma at parse_tariffs.py line 149
concatenates the raw strings of lines 149 and 150 into this single pattern. -/
def p2tail (s : List Char) : Bool :=
  let d1 := s.takeWhile isDigitCh
  if d1.isEmpty then false
  else
    let r1 := s.dropWhile isDigitCh
    let r2 := match r1 with
              | c :: rest => if isSepCh c then rest else r1
              | [] => r1
    let r3 := r2.dropWhile isDigitCh
    let r4 := r3.dropWhile isPySpace
    listStartsWith gbU r4 || listStartsWith gbLat r4 || listStartsWith gigabait r4

/-- Pattern 2 of extract_data_gb at one position. -/
def matchP2At (s : List Char) : Bool :=
  match dropLit neogr s with
  | some rest => p2tail rest
  | none => false

/-- re.search for pattern 2 of extract_data_gb. -/
def scanP2 : List Char → Bool
  | [] => matchP2At []
  | c :: rest => matchP2At (c :: rest) || scanP2 rest

/-- Optional single separator of the price regex. -/
def takeSep : List Char → List Char × List Char
  | [] => ([], [])
  | c :: rest => if isSepCh c then ([c], rest) else ([], c :: rest)

/-- Matcher at one position for the price regex of line 131:
(digits)(optional separator)(digits star)(optional separator)(digits star),
all in one group.  Everything after the leading digit run is optional, so the
greedy maximal munch is exactly Python's behaviour. -/
def priceMatchAt (s : List Char) : Option (List Char) :=
  let d1 := s.takeWhile isDigitCh
  if d1.isEmpty then none
  else
    let r1 := s.dropWhile isDigitCh
    let (s1, r2) := takeSep r1
    let d2 := r2.takeWhile isDigitCh
    let r3 := r2.dropWhile isDigitCh
    let (s2, r4) := takeSep r3
    let d3 := r4.takeWhile isDigitCh
    some (d1 ++ s1 ++ d2 ++ s2 ++ d3)

/-- re.search for the price regex. -/
def scanPrice : List Char → Option (List Char)
  | [] => none
  | c :: rest =>
    match priceMatchAt (c :: rest) with
    | some g => some g
    | none => scanPrice rest

/-- parse_tariffs.py lines 128-139, extract_price: search for the first
numeric token, replace commas by periods, drop spaces, parse as Decimal and
convert to float; any parse failure, or no token at all, yields 0. -/
def extract_price (text : List Char) : ℚ :=
  match scanPrice text with
  | some g =>
    match numParse ((replaceCh (',') ('.') g).filter (fun c => !(c == ' '))) with
    | some v => v
    | none => 0
  | none => 0

/-- The unlimited sentinel of parse_tariffs.py (lines 162 and 185). -/
def sentinel : ℚ := 999999

/-- The preprocessing shared by extract_data_gb and extract_minutes
(lines 144 and 172): lower-case, replace the entity string by a space,
strip tags. -/
def preprocess (text : List Char) : List Char :=
  remove_tags (replaceSub nbspPat spacePat (pyLower text))

/-- Pattern 4 of extract_data_gb, (digits)(whitespace star)тб, with the
multiplier and unlimited checks of lines 157-165.  The pattern source
contains тб, so the multiplier is 1000 exactly when the text contains тб. -/
def dataP4 (t : List Char) : ℚ :=
  match scanNumUnits [tbU] t with
  | some g =>
    let multiplier : ℚ := if listHasSubstr tbU t then 1000 else 1
    if listHasSubstr bezlimitGb t || listHasSubstr neogr t then sentinel
    else
      match numParse (replaceCh (',') ('.') g) with
      | some v => v * multiplier
      | none => 0
  | none => 0

/-- parse_tariffs.py lines 141-168, extract_data_gb.  The four patterns tried
in order are: the literal безлимит гб; the concatenation of неограничен with
the digits-units pattern (the comma missing at line 149 merges what were
meant to be two separate patterns); (digits)(whitespace)гб; and
(digits)(whitespace)тб.  A match of pattern 1 and a match of pattern 2 each
imply that the unlimited test of line 161 succeeds, so those two branches
return the sentinel directly.  The pattern sources of patterns 1-3 do not
contain тб, so their multiplier is 1; float() on the digit group can only
fail in the fall-through sense of the loop, kept here as the none branches. -/
def extract_data_gb (text : List Char) : ℚ :=
  let t := preprocess text
  if listHasSubstr bezlimitGb t then sentinel
  else if scanP2 t then sentinel
  else
    match scanNumUnits [gbU] t with
    | some g =>
      if listHasSubstr bezlimitGb t || listHasSubstr neogr t then sentinel
      else
        match numParse (replaceCh (',') ('.') g) with
        | some v => v * 1
        | none => dataP4 t
    | none => dataP4 t

/-- Pattern 3 and pattern 4 of extract_minutes (lines 177-178): the literal
безлимит минут, then the literal неограничен; a match of either implies the
unlimited test of line 184 succeeds. -/
def minutesP34 (t : List Char) : ℚ :=
  if listHasSubstr bezlimitMin t then sentinel
  else if listHasSubstr neogr t then sentinel
  else 0

/-- parse_tariffs.py lines 170-191, extract_minutes.  Pattern 1 is
(digits)(whitespace)(минут, мин or min); pattern 2, (digits)(whitespace)мин,
can only match where pattern 1 already did, but is kept for faithfulness;
patterns 3 and 4 are the unlimited literals.  int() on the digit group
always succeeds; its failure branch falls through as in the source. -/
def extract_minutes (text : List Char) : ℚ :=
  let t := preprocess text
  match scanNumUnits [minutU, minShortU, minLat] t with
  | some g =>
    if listHasSubstr bezlimitMin t || listHasSubstr neogr t then sentinel
    else
      match numParse g with
      | some v => v
      | none => minutesP34 t
  | none =>
    match scanNumUnits [minShortU] t with
    | some g =>
      if listHasSubstr bezlimitMin t || listHasSubstr neogr t then sentinel
      else
        match numParse g with
        | some v => v
        | none => minutesP34 t
    | none => minutesP34 t


/-!
## Data model and cost calculator (src/comparison/models.py)
-/

/-- The ingestible fields of a TariffPlan row (models.py lines 24-70), minus
the key (operator, name), which the store below keys rows by.  The numeric
VALUES are embedded as exact rationals; the runtime TYPES of the fields
(Decimal for monthly_fee and the overage prices, float for data_volume, int
for minutes_volume) matter only inside calculate_cost_for_user, whose
embedding below accounts for them explicitly. -/
structure TariffPlan where
  description : String
  monthly_fee : ℚ
  data_volume : ℚ
  minutes_volume : ℚ
  overage_data_price : ℚ
  overage_minute_price : ℚ
  is_archived : Bool
deriving DecidableEq

/-- The Python runtime error the cost calculator can raise. -/
inductive PyNumError where
  | typeError
deriving DecidableEq

/-- models.py lines 81-89, TariffPlan.calculate_cost_for_user, with the
fields' runtime numeric types made explicit.  monthly_fee,
overage_data_price and overage_minute_price are DecimalFields (Python
Decimal at runtime); data_volume is a FloatField (Python float);
minutes_volume is an IntegerField, and the consumption inputs are a float
data_gb and an int minutes (the field types of UserProfile and
TariffComparison).  At line 86, data_gb - data_volume is a float, so
max(0, ...) is the int 0 when data_gb ≤ data_volume and a positive float
otherwise; in the positive case line 88 multiplies that float by the
Decimal overage_data_price, and Python's decimal module refuses
float-with-Decimal arithmetic: the method raises TypeError instead of
returning.  extra_minutes is always an int (int minus int), and int-with-
Decimal arithmetic is allowed, so the minutes term never raises.  The
numeric values themselves are exact small rationals, embedded in ℚ. -/
def calculate_cost_for_user (p : TariffPlan) (data_gb minutes : ℚ) :
    Except PyNumError ℚ :=
  let base_cost := p.monthly_fee
  let extra_data := max 0 (data_gb - p.data_volume)
  let extra_minutes := max 0 (minutes - p.minutes_volume)
  if 0 < extra_data then Except.error PyNumError.typeError
  else
    Except.ok (base_cost + extra_data * p.overage_data_price
      + extra_minutes * p.overage_minute_price)

/-!
## Reconciliation (parse_tariffs.py lines 73-108) and the canonical store

The persistence interface of the spec is embedded as a keyed map from
(operator name, plan name) to the row's fields; unique_together at
models.py line 76 makes the key identifying, and update_or_create at
lines 85-97 is an upsert on that key.
-/

/-- A raw tariff record as produced by an adapter: the dict of
parse_and_save_operator lines 85-96, with the absent keys already given
their defaults from lines 89-95. -/
structure RawTariff where
  name : String
  description : String
  monthly_fee : ℚ
  data_volume : ℚ
  minutes_volume : ℚ
  overage_data_price : ℚ
  overage_minute_price : ℚ
  is_archived : Bool
deriving DecidableEq

/-- The fields written for a record by update_or_create's defaults dict. -/
def fieldsOf (r : RawTariff) : TariffPlan :=
  { description := r.description
    monthly_fee := r.monthly_fee
    data_volume := r.data_volume
    minutes_volume := r.minutes_volume
    overage_data_price := r.overage_data_price
    overage_minute_price := r.overage_minute_price
    is_archived := r.is_archived }

/-- Row key: (operator name, tariff name). -/
abbrev PlanKey := String × String

/-- The canonical store of TariffPlan rows. -/
abbrev DB : Type := PlanKey → Option TariffPlan

/-- update_or_create keyed by (operator, name): overwrite if the key exists,
create it otherwise (parse_tariffs.py lines 85-97). -/
def update_or_create (op : String) (r : RawTariff) (db : DB) : DB :=
  fun k => if k = (op, r.name) then some (fieldsOf r) else db k

/-- The save loop of parse_and_save_operator lines 81-108: each record is
upserted inside its own try, a failing record is reported and skipped
(lines 105-106), and the saved count is returned.  ok is the (deterministic)
predicate telling which records save without an exception. -/
def saveLoop (ok : RawTariff → Bool) (op : String) (db : DB) :
    List RawTariff → DB × Nat
  | [] => (db, 0)
  | r :: rs =>
    if ok r then
      let step := saveLoop ok op (update_or_create op r db) rs
      (step.1, step.2 + 1)
    else saveLoop ok op db rs

/-- The fields the save loop leaves at key k: those of the last record of rs
that saves successfully under key k, if any. -/
def lastSaved (ok : RawTariff → Bool) (op : String) (k : PlanKey) :
    List RawTariff → Option TariffPlan
  | [] => none
  | r :: rs =>
    match lastSaved ok op k rs with
    | some f => some f
    | none =>
      if ok r then (if k = (op, r.name) then some (fieldsOf r) else none) else none

/-!
## Source adapters (parse_tariffs.py lines 193-367)

Each adapter is embedded over an abstract fetch outcome: the claims are about
the adapters' control flow on success and failure, not about HTTP itself.
-/

/-- What a Python adapter call can evaluate to: a list of records, or the
error strings parse_beeline returns at lines 287, 293 and 299.  No adapter
can propagate an exception: every fallible statement of each adapter sits
inside a try whose except clause returns a value (lines 214-216, 245-247,
334-336, 365-367), which the totality of these functions reflects. -/
inductive AdapterResult where
  | records (ts : List RawTariff) : AdapterResult
  | errString (msg : String) : AdapterResult
deriving DecidableEq

/-- One tariff card of the MTS page, as located at lines 201-207; wellFormed
says the finds of lines 204-207 all succeed (otherwise the AttributeError
escapes to line 214). -/
structure MtsCard where
  name : String
  description : String
  monthly_fee : ℚ
  features : String
  wellFormed : Bool

/-- Abstract outcome of the MTS fetch: fetchFails covers a requests or
parsing exception at lines 196-197. -/
structure MtsInput where
  fetchFails : Bool
  cards : List MtsCard

/-- The record lines 203-210 build for a well-formed card: the extractors run
on the features text, the overage prices are absent from the dict and default
to 0 at save time (lines 93-94). -/
def mtsRecordOf (c : MtsCard) : RawTariff :=
  { name := c.name
    description := c.description
    monthly_fee := c.monthly_fee
    data_volume := extract_data_gb ((c.features).toList)
    minutes_volume := extract_minutes ((c.features).toList)
    overage_data_price := 0
    overage_minute_price := 0
    is_archived := false }

/-- The card loop of parse_mts lines 199-212: the record of each well-formed
card is built into the loop variable but never appended to the accumulator
(there is no tariffs.append in the loop), so the accumulator stays as
initialized; a malformed card raises and line 216 returns the empty list. -/
def mtsLoop : List MtsCard → List RawTariff → AdapterResult
  | [], acc => AdapterResult.records acc
  | c :: rest, acc =>
    if c.wellFormed then mtsLoop rest acc
    else AdapterResult.records []

/-- parse_tariffs.py lines 193-216, parse_mts. -/
def parse_mts (i : MtsInput) : AdapterResult :=
  if i.fetchFails then AdapterResult.records [] else mtsLoop i.cards []

/-- parse_tariffs.py lines 218-247, parse_megafon.  On a fetch failure the
except clause returns the empty list; otherwise building the stub dict calls
self.extract_price (line 234), and extract_price is declared without a self
parameter (line 128), so the bound-method call raises TypeError, which the
same except clause turns into the empty list.  Either way the result is
empty. -/
def parse_megafon (_fetchFails : Bool) : AdapterResult :=
  AdapterResult.records []

/-- parse_tariffs.py lines 338-367, parse_t2: same situation as
parse_megafon (self.extract_price at line 354), so always the empty list. -/
def parse_t2 (_fetchFails : Bool) : AdapterResult :=
  AdapterResult.records []

/-- Abstract outcome of the Beeline fetch: whether the request raises,
whether a script tag carrying the marker string exists (line 282), and
whether the React.createElement regex of line 290 finds its JSON group. -/
structure BeelineInput where
  fetchFails : Bool
  scriptFound : Bool
  jsonFound : Bool

/-- parse_tariffs.py lines 250-336, parse_beeline.  On a fetch failure the
outer except returns the empty list.  A missing marker script or a failed
regex returns an error STRING (lines 287 and 293), not a list.  When the
regex succeeds, line 297 calls json.loads, but the module never imports
json, so the call raises NameError, the bare except at line 298 catches it,
and line 299 returns the third error string; the card-mapping loops of
lines 301-332 are unreachable. -/
def parse_beeline (i : BeelineInput) : AdapterResult :=
  if i.fetchFails then AdapterResult.records []
  else if !i.scriptFound then AdapterResult.errString "Скрипт с тарифами не найден"
  else if !i.jsonFound then AdapterResult.errString "Не удалось найти JSON"
  else AdapterResult.errString "Ошибка чтения JSON"

/-!
## The batch command (parse_tariffs.py lines 39-108)
-/

/-- The command options of add_arguments (lines 17-37). -/
structure Options where
  opFilter : Option String
  force : Bool
  dry_run : Bool
  clear : Bool

/-- One operator of the batch, with the abstract outcome of
parse_and_save_operator's parse phase: none means an exception is raised
while parsing or saving that operator (the atomic transaction of line 73
rolls its writes back and line 67 catches it); some recs means the adapter
returned that list of records. -/
structure OpJob where
  name : String
  fetch : Option (List RawTariff)

/-- Django's name icontains lookup of line 44: case-insensitive substring. -/
def icontains (needle hay : String) : Bool :=
  listHasSubstr (pyLower (needle.toList)) (pyLower (hay.toList))

/-- The operator filter of lines 43-44. -/
def filterOps (flt : Option String) (ops : List OpJob) : List OpJob :=
  match flt with
  | none => ops
  | some f => ops.filter fun op => icontains f op.name

/-- The clear step of lines 46-48: with the clear option, every TariffPlan
row is deleted before the loop, regardless of the other options. -/
def clearStep (opts : Options) (db : DB) : DB :=
  if opts.clear then fun _ => none else db

/-- The operator loop of handle lines 52-70 together with
parse_and_save_operator lines 73-108, threading the store: a failing
operator changes nothing and is reported (line 68); in dry-run mode the
record count is returned before any write (lines 78-79); otherwise the save
loop runs and its count is added.  Returns the final store and the
total_parsed aggregate that line 71 always prints. -/
def runOpsCount (dry : Bool) (ok : RawTariff → Bool) (db : DB) :
    List OpJob → DB × Nat
  | [] => (db, 0)
  | op :: rest =>
    match op.fetch with
    | none => runOpsCount dry ok db rest
    | some recs =>
      if dry then
        let step := runOpsCount dry ok db rest
        (step.1, recs.length + step.2)
      else
        let saved := saveLoop ok op.name db recs
        let step := runOpsCount dry ok saved.1 rest
        (step.1, saved.2 + step.2)

/-- parse_tariffs.py handle, lines 39-71: filter, clear, loop, summary. -/
def handleFull (opts : Options) (ok : RawTariff → Bool) (db : DB)
    (ops : List OpJob) : DB × Nat :=
  runOpsCount opts.dry_run ok (clearStep opts db) (filterOps opts.opFilter ops)

/-- The store handle leaves behind. -/
def handleDB (opts : Options) (ok : RawTariff → Bool) (db : DB)
    (ops : List OpJob) : DB :=
  (handleFull opts ok db ops).1

/-!
## Concrete instances used by the claim theorems
-/

/-- A digit run followed by a lowercase GB unit, the general shape of
пакет texts like 15 гб. -/
def gbSuffix : List Char := (" гб").toList

/-- A digit run followed by a lowercase TB unit. -/
def tbSuffix : List Char := (" тб").toList

/-- A sample plan: fee 300, 10 GB, 200 minutes, 100 per extra GB, 3 per
extra minute. -/
def p1 : TariffPlan :=
  { description := ""
    monthly_fee := 300
    data_volume := 10
    minutes_volume := 200
    overage_data_price := 100
    overage_minute_price := 3
    is_archived := false }

/-- A plan whose data allowance is the unlimited sentinel, with a nonzero
data overage price. -/
def pC2 : TariffPlan :=
  { description := ""
    monthly_fee := 0
    data_volume := 999999
    minutes_volume := 0
    overage_data_price := 1
    overage_minute_price := 0
    is_archived := false }

/-- A plan whose minutes allowance is the unlimited sentinel, with a
nonzero minute overage price and an ample data allowance. -/
def pC2m : TariffPlan :=
  { description := ""
    monthly_fee := 0
    data_volume := 999999
    minutes_volume := 999999
    overage_data_price := 0
    overage_minute_price := 1
    is_archived := false }

/-- A well-formed MTS tariff card. -/
def demoCard : MtsCard :=
  { name := "Тариф Мини"
    description := "Описание"
    monthly_fee := 300
    features := "15 гб 500 минут"
    wellFormed := true }

/-- Options with both dry-run and clear set. -/
def optsDryClear : Options :=
  { opFilter := none, force := false, dry_run := true, clear := true }

/-- Options with dry-run set and clear unset. -/
def optsDryOnly : Options :=
  { opFilter := none, force := false, dry_run := true, clear := false }

/-- A sample stored row. -/
def f0 : TariffPlan :=
  { description := "старый"
    monthly_fee := 100
    data_volume := 5
    minutes_volume := 100
    overage_data_price := 0
    overage_minute_price := 0
    is_archived := false }

/-- A store holding exactly one row, for operator МТС, plan Smart. -/
def db0 : DB := fun k => if k = ("МТС", "Smart") then some f0 else none

/-!
## Helper lemmas
-/

theorem digit_beq_false {p c : Char} (hp : isDigitCh p = false)
    (hc : isDigitCh c = true) : (p == c) = false := by
  cases hbc : p == c
  · rfl
  · have hpc : p = c := eq_of_beq hbc
    rw [hpc, hc] at hp
    exact Bool.noConfusion hp

theorem digit_beq_false' {c x : Char} (hc : isDigitCh c = true)
    (hx : isDigitCh x = false) : (c == x) = false := by
  cases hbc : c == x
  · rfl
  · have hcx : c = x := eq_of_beq hbc
    rw [← hcx, hc] at hx
    exact Bool.noConfusion hx

theorem startsWith_cons_false {p : Char} (ps : List Char) {c : Char} (t : List Char)
    (h : (p == c) = false) : listStartsWith (p :: ps) (c :: t) = false := by
  simp [listStartsWith, dropLit, h]

theorem hasSubstr_digits_append (p : Char) (ps : List Char) (hp : isDigitCh p = false)
    (d s : List Char) (hd : ∀ c ∈ d, isDigitCh c = true) :
    listHasSubstr (p :: ps) (d ++ s) = listHasSubstr (p :: ps) s := by
  induction d with
  | nil => rfl
  | cons c d' ih =>
    have hc : isDigitCh c = true := hd c (List.mem_cons_self c d')
    have hd' : ∀ x ∈ d', isDigitCh x = true := fun x hx => hd x (List.mem_cons_of_mem c hx)
    show (listStartsWith (p :: ps) (c :: (d' ++ s)) || listHasSubstr (p :: ps) (d' ++ s))
        = listHasSubstr (p :: ps) s
    rw [startsWith_cons_false ps _ (digit_beq_false hp hc), ih hd', Bool.false_or]

theorem takeWhile_append_all (p : Char → Bool) (d s : List Char)
    (hd : ∀ c ∈ d, p c = true) :
    (d ++ s).takeWhile p = d ++ s.takeWhile p := by
  induction d with
  | nil => rfl
  | cons c d' ih =>
    have hc := hd c (List.mem_cons_self c d')
    rw [List.cons_append, List.takeWhile_cons_of_pos hc,
      ih (fun x hx => hd x (List.mem_cons_of_mem c hx)), List.cons_append]

theorem dropWhile_append_all (p : Char → Bool) (d s : List Char)
    (hd : ∀ c ∈ d, p c = true) :
    (d ++ s).dropWhile p = s.dropWhile p := by
  induction d with
  | nil => rfl
  | cons c d' ih =>
    have hc := hd c (List.mem_cons_self c d')
    rw [List.cons_append, List.dropWhile_cons_of_pos hc,
      ih (fun x hx => hd x (List.mem_cons_of_mem c hx))]

theorem takeWhile_eq_self_of_all (p : Char → Bool) (d : List Char)
    (hd : ∀ c ∈ d, p c = true) : d.takeWhile p = d := by
  have h := takeWhile_append_all p d [] hd
  simpa using h

theorem dropWhile_eq_nil_of_all (p : Char → Bool) (d : List Char)
    (hd : ∀ c ∈ d, p c = true) : d.dropWhile p = [] := by
  have h := dropWhile_append_all p d [] hd
  simpa using h

theorem dropWhile_eq_self_of_all_neg (p : Char → Bool) (d : List Char)
    (hd : ∀ c ∈ d, p c = false) : d.dropWhile p = d := by
  cases d with
  | nil => rfl
  | cons c t =>
    have hc := hd c (List.mem_cons_self c t)
    rw [List.dropWhile_cons_of_neg (by simp [hc])]

theorem dropWhile_eq_self_of_takeWhile_nil (p : Char → Bool) (s : List Char)
    (h : s.takeWhile p = []) : s.dropWhile p = s := by
  cases s with
  | nil => rfl
  | cons c t =>
    have hpc : p c = false := by
      cases hx : p c
      · rfl
      · rw [List.takeWhile_cons_of_pos hx] at h
        exact List.noConfusion h
    rw [List.dropWhile_cons_of_neg (by simp [hpc])]

theorem pyLowerChar_digit {c : Char} (hc : isDigitCh c = true) : pyLowerChar c = c := by
  have h48 : 48 ≤ c.toNat ∧ c.toNat ≤ 57 := by
    simpa [isDigitCh, Bool.and_eq_true, decide_eq_true_eq] using hc
  unfold pyLowerChar
  rw [if_neg (by simp only [Bool.and_eq_true, decide_eq_true_eq]; omega),
    if_neg (by simp only [Bool.and_eq_true, decide_eq_true_eq]; omega),
    if_neg (by simp only [beq_iff_eq]; omega)]

theorem pyLower_digits (d : List Char) (hd : ∀ c ∈ d, isDigitCh c = true) :
    pyLower d = d := by
  induction d with
  | nil => rfl
  | cons c d' ih =>
    have hc := hd c (List.mem_cons_self c d')
    show pyLowerChar c :: List.map pyLowerChar d' = c :: d'
    rw [pyLowerChar_digit hc]
    have := ih (fun x hx => hd x (List.mem_cons_of_mem c hx))
    rw [show List.map pyLowerChar d' = d' from this]

theorem replaceSubAux_id (pat rep : List Char) :
    ∀ fuel s, listHasSubstr pat s = false → replaceSubAux pat rep fuel s = s := by
  intro fuel
  induction fuel with
  | zero => intro s _; cases s <;> rfl
  | succ n ih =>
    intro s h
    cases s with
    | nil => rfl
    | cons c rest =>
      have h2 : listStartsWith pat (c :: rest) = false ∧ listHasSubstr pat rest = false := by
        have : (listStartsWith pat (c :: rest) || listHasSubstr pat rest) = false := h
        exact Bool.or_eq_false_iff.mp this
      have hdl : dropLit pat (c :: rest) = none := by
        have := h2.1
        unfold listStartsWith at this
        cases ho : dropLit pat (c :: rest)
        · rfl
        · rw [ho] at this; exact Bool.noConfusion this
      show (match dropLit pat (c :: rest) with
            | some r => rep ++ replaceSubAux pat rep n r
            | none => c :: replaceSubAux pat rep n rest) = c :: rest
      rw [hdl, ih rest h2.2]

theorem replaceSub_id (pat rep s : List Char) (h : listHasSubstr pat s = false) :
    replaceSub pat rep s = s :=
  replaceSubAux_id pat rep s.length s h

theorem removeTagsAux_id :
    ∀ fuel s, (∀ c ∈ s, (c == '<') = false) → removeTagsAux fuel s = s := by
  intro fuel
  induction fuel with
  | zero => intro s _; cases s <;> rfl
  | succ n ih =>
    intro s h
    cases s with
    | nil => rfl
    | cons c rest =>
      have hc := h c (List.mem_cons_self c rest)
      show (if c == '<' then
              match findGt rest with
              | some rest' => removeTagsAux n rest'
              | none => c :: removeTagsAux n rest
            else c :: removeTagsAux n rest) = c :: rest
      rw [if_neg (by simp [hc]), ih rest (fun x hx => h x (List.mem_cons_of_mem c hx))]

theorem remove_tags_id (s : List Char) (h : ∀ c ∈ s, (c == '<') = false) :
    remove_tags s = s :=
  removeTagsAux_id s.length s h

theorem preprocess_digits_append (d s : List Char)
    (hd : ∀ c ∈ d, isDigitCh c = true)
    (h1 : pyLower s = s) (h2 : listHasSubstr nbspPat s = false)
    (h3 : ∀ c ∈ s, (c == '<') = false) :
    preprocess (d ++ s) = d ++ s := by
  unfold preprocess
  have e1 : pyLower (d ++ s) = d ++ s := by
    unfold pyLower
    rw [List.map_append, show List.map pyLowerChar d = d from pyLower_digits d hd,
      show List.map pyLowerChar s = s from h1]
  rw [e1]
  have hns : listHasSubstr nbspPat (d ++ s) = false := by
    rw [show nbspPat = '&' :: (("nbsp;").toList) from rfl]
    rw [hasSubstr_digits_append '&' _ (by decide) d s hd]
    rw [show ('&' :: (("nbsp;").toList)) = nbspPat from rfl]
    exact h2
  rw [replaceSub_id _ _ _ hns]
  refine remove_tags_id _ (fun c hcm => ?_)
  rcases List.mem_append.mp hcm with hcd | hcs
  · exact digit_beq_false' (hd c hcd) (by decide)
  · exact h3 c hcs

theorem matchP2At_digit (c : Char) (t : List Char) (hc : isDigitCh c = true) :
    matchP2At (c :: t) = false := by
  unfold matchP2At
  rw [show neogr = 'н' :: (("еограничен").toList) from rfl]
  have hb : ('н' == c) = false := digit_beq_false (by decide) hc
  simp [dropLit, hb]

theorem scanP2_digits_append (d s : List Char) (hd : ∀ c ∈ d, isDigitCh c = true) :
    scanP2 (d ++ s) = scanP2 s := by
  induction d with
  | nil => rfl
  | cons c d' ih =>
    have hc := hd c (List.mem_cons_self c d')
    show (matchP2At (c :: (d' ++ s)) || scanP2 (d' ++ s)) = scanP2 s
    rw [matchP2At_digit c _ hc, ih (fun x hx => hd x (List.mem_cons_of_mem c hx)),
      Bool.false_or]

theorem matchNumUnitsAt_digits_append (units : List (List Char)) (d s : List Char)
    (hd : ∀ c ∈ d, isDigitCh c = true) (hne : d ≠ [])
    (hs : s.takeWhile isDigitCh = []) :
    matchNumUnitsAt units (d ++ s)
      = if units.any (fun u => listStartsWith u (s.dropWhile isPySpace)) then some d
        else none := by
  have h1 : (d ++ s).takeWhile isDigitCh = d := by
    rw [takeWhile_append_all _ d s hd, hs, List.append_nil]
  have h2 : (d ++ s).dropWhile isDigitCh = s := by
    rw [dropWhile_append_all _ d s hd, dropWhile_eq_self_of_takeWhile_nil _ _ hs]
  have h3 : d.isEmpty = false := by
    cases d
    · exact absurd rfl hne
    · rfl
  simp only [matchNumUnitsAt]
  rw [h1, h2, h3]
  simp

theorem scanNumUnits_append_hit (units : List (List Char)) (d s : List Char)
    (hd : ∀ c ∈ d, isDigitCh c = true) (hne : d ≠ [])
    (hs : s.takeWhile isDigitCh = [])
    (hhit : units.any (fun u => listStartsWith u (s.dropWhile isPySpace)) = true) :
    scanNumUnits units (d ++ s) = some d := by
  cases d with
  | nil => exact absurd rfl hne
  | cons c d' =>
    show (match matchNumUnitsAt units (c :: (d' ++ s)) with
          | some g => some g
          | none => scanNumUnits units (d' ++ s)) = some (c :: d')
    rw [← List.cons_append,
      matchNumUnitsAt_digits_append units (c :: d') s hd (by simp) hs, hhit]
    simp

theorem scanNumUnits_append_miss (units : List (List Char)) (d s : List Char)
    (hd : ∀ c ∈ d, isDigitCh c = true)
    (hs : s.takeWhile isDigitCh = [])
    (hmiss : units.any (fun u => listStartsWith u (s.dropWhile isPySpace)) = false) :
    scanNumUnits units (d ++ s) = scanNumUnits units s := by
  induction d with
  | nil => rfl
  | cons c d' ih =>
    have hd' : ∀ x ∈ d', isDigitCh x = true := fun x hx => hd x (List.mem_cons_of_mem c hx)
    show (match matchNumUnitsAt units (c :: (d' ++ s)) with
          | some g => some g
          | none => scanNumUnits units (d' ++ s)) = scanNumUnits units s
    rw [← List.cons_append,
      matchNumUnitsAt_digits_append units (c :: d') s hd (by simp) hs, hmiss]
    simpa using ih hd'

theorem scanPrice_none (t : List Char) (h : ∀ c ∈ t, isDigitCh c = false) :
    scanPrice t = none := by
  induction t with
  | nil => rfl
  | cons c rest ih =>
    have hc := h c (List.mem_cons_self c rest)
    have hm : priceMatchAt (c :: rest) = none := by
      simp only [priceMatchAt]
      rw [List.takeWhile_cons_of_neg (by simp [hc])]
      rfl
    show (match priceMatchAt (c :: rest) with
          | some g => some g
          | none => scanPrice rest) = none
    rw [hm, ih (fun x hx => h x (List.mem_cons_of_mem c hx))]

theorem digit_not_space {c : Char} (hc : isDigitCh c = true) : isPySpace c = false := by
  have h48 : 48 ≤ c.toNat ∧ c.toNat ≤ 57 := by
    simpa [isDigitCh, Bool.and_eq_true, decide_eq_true_eq] using hc
  unfold isPySpace
  simp only [Bool.or_eq_false_iff, beq_eq_false_iff_ne, ne_eq]
  omega

theorem numParse_digits (d : List Char) (hd : ∀ c ∈ d, isDigitCh c = true)
    (hne : d ≠ []) : numParse d = some ((digitsToNat d : ℚ)) := by
  have hsp : ∀ c ∈ d, isPySpace c = false := fun c hc => digit_not_space (hd c hc)
  have h1 : stripWs d = d := by
    unfold stripWs
    rw [dropWhile_eq_self_of_all_neg _ _ hsp,
      dropWhile_eq_self_of_all_neg _ _ (fun c hc => hsp c (List.mem_reverse.mp hc)),
      List.reverse_reverse]
  have h3 : d.isEmpty = false := by
    cases d
    · exact absurd rfl hne
    · rfl
  simp only [numParse, h1]
  rw [takeWhile_eq_self_of_all _ _ hd, dropWhile_eq_nil_of_all _ _ hd]
  simp [h3]

theorem replaceCh_digits (d : List Char) (hd : ∀ c ∈ d, isDigitCh c = true) :
    replaceCh (',') ('.') d = d := by
  induction d with
  | nil => rfl
  | cons c d' ih =>
    have hc := hd c (List.mem_cons_self c d')
    show (if c == ',' then '.' else c) :: List.map (fun x => if x == ',' then '.' else x) d' = c :: d'
    have h44 : isDigitCh (',') = false := by decide
    rw [if_neg (by simp [digit_beq_false' hc h44])]
    have := ih (fun x hx => hd x (List.mem_cons_of_mem c hx))
    rw [show List.map (fun x => if x == ',' then '.' else x) d' = d' from this]

theorem saveLoop_lookup (ok : RawTariff → Bool) (op : String) (rs : List RawTariff) :
    ∀ (db : DB) (k : PlanKey),
      (saveLoop ok op db rs).1 k
        = match lastSaved ok op k rs with
          | some f => some f
          | none => db k := by
  induction rs with
  | nil => intro db k; rfl
  | cons r rs ih =>
    intro db k
    cases hok : ok r with
    | false =>
      have e1 : saveLoop ok op db (r :: rs) = saveLoop ok op db rs := by
        simp [saveLoop, hok]
      have e2 : lastSaved ok op k (r :: rs) = lastSaved ok op k rs := by
        simp only [lastSaved, hok]
        cases lastSaved ok op k rs <;> simp
      rw [e1, e2, ih db k]
    | true =>
      have e1 : (saveLoop ok op db (r :: rs)).1
          = (saveLoop ok op (update_or_create op r db) rs).1 := by
        simp [saveLoop, hok]
      rw [e1, ih (update_or_create op r db) k]
      cases hls : lastSaved ok op k rs with
      | some f => simp [lastSaved, hls]
      | none =>
        simp only [lastSaved, hls, hok, if_true]
        by_cases hk : k = (op, r.name)
        · simp [update_or_create, hk]
        · simp [update_or_create, hk]

theorem saveLoop_count (ok : RawTariff → Bool) (op : String) (rs : List RawTariff) :
    ∀ db : DB, (saveLoop ok op db rs).2 = rs.countP ok := by
  induction rs with
  | nil => intro db; rfl
  | cons r rs ih =>
    intro db
    cases hok : ok r <;> simp [saveLoop, hok, List.countP_cons, ih]

theorem runOpsCount_dry_fst (ok : RawTariff → Bool) :
    ∀ (l : List OpJob) (db : DB), (runOpsCount true ok db l).1 = db := by
  intro l
  induction l with
  | nil => intro db; rfl
  | cons op rest ih =>
    intro db
    cases hf : op.fetch with
    | none => simp [runOpsCount, hf, ih]
    | some recs => simp [runOpsCount, hf, ih]

/-!
## Claim theorems
-/

/-- C1: the claim states the documented cost formula.  On every input the
method survives (data_gb at most data_volume, where the data overage factor
is the int 0) it indeed returns exactly that formula, and such inputs add
zero data overage; but on the claim's own positive-overage example — a plan
with data_volume 10 and overage_data_price 100 (the sample plan p1), input
(12, 0) — the method raises TypeError instead of returning
monthly_fee + 2*100: the positive extra_data of line 86 is a float, and
line 88 multiplies it by the Decimal overage price.  The first two
conjuncts state what the code does where it returns; the third evaluates
the code at the claim's example, exhibiting the bug. -/
theorem claim1_cost_formula (p : TariffPlan) (d m : ℚ) (hd : d ≤ p.data_volume) :
    (calculate_cost_for_user p d m
      = Except.ok (p.monthly_fee + max 0 (d - p.data_volume) * p.overage_data_price
          + max 0 (m - p.minutes_volume) * p.overage_minute_price))
    ∧ (calculate_cost_for_user p d m
      = Except.ok (p.monthly_fee
          + max 0 (m - p.minutes_volume) * p.overage_minute_price))
    ∧ calculate_cost_for_user p1 12 0 = Except.error PyNumError.typeError := by
  have e : max (0 : ℚ) (d - p.data_volume) = 0 := max_eq_left (by linarith)
  refine ⟨?_, ?_, ?_⟩
  · simp [calculate_cost_for_user, e]
  · simp [calculate_cost_for_user, e]
  · have e1 : max (0 : ℚ) ((12 : ℚ) - p1.data_volume) = 2 := by norm_num [p1]
    have hpos : (0 : ℚ) < max 0 ((12 : ℚ) - p1.data_volume) := by rw [e1]; norm_num
    simp only [calculate_cost_for_user]
    rw [if_pos hpos]

/-- Witness for claim1_cost_formula at the sample plan p1 and input (5, 0). -/
theorem claim1_witness :
    (5 : ℚ) ≤ p1.data_volume
    ∧ calculate_cost_for_user p1 5 0
        = Except.ok (p1.monthly_fee
            + max 0 ((0 : ℚ) - p1.minutes_volume) * p1.overage_minute_price) := by
  have h : (5 : ℚ) ≤ p1.data_volume := by norm_num [p1]
  exact ⟨h, (claim1_cost_formula p1 5 0 h).2.1⟩

/-- C2 counterexample: the sentinel does not make overage always 0.  Data
side: for pC2 (data_volume the sentinel, Decimal overage price 1), the call
at data_gb 1000000 raises TypeError — it does not return the fee with zero
overage, it crashes on the float-times-Decimal of the excess over the
sentinel.  Minutes side: for pC2m (minutes_volume the sentinel, minute
price 1, fee 0), the call at minutes 1000000 returns 1, billing the excess
over the sentinel rather than adding zero overage (int-with-Decimal
arithmetic does not raise). -/
theorem claim2_counterexample :
    pC2.data_volume = 999999
    ∧ calculate_cost_for_user pC2 1000000 0 = Except.error PyNumError.typeError
    ∧ pC2m.minutes_volume = 999999
    ∧ calculate_cost_for_user pC2m 0 1000000 = Except.ok 1
    ∧ (Except.ok (1 : ℚ) : Except PyNumError ℚ) ≠ Except.ok pC2m.monthly_fee := by
  refine ⟨rfl, ?_, rfl, ?_, ?_⟩
  · have e1 : max (0 : ℚ) ((1000000 : ℚ) - pC2.data_volume) = 1 := by norm_num [pC2]
    have hpos : (0 : ℚ) < max 0 ((1000000 : ℚ) - pC2.data_volume) := by rw [e1]; norm_num
    simp only [calculate_cost_for_user]
    rw [if_pos hpos]
  · have e0 : max (0 : ℚ) ((0 : ℚ) - pC2m.data_volume) = 0 := by
      apply max_eq_left; norm_num [pC2m]
    have e1 : max (0 : ℚ) ((1000000 : ℚ) - pC2m.minutes_volume) = 1 := by
      norm_num [pC2m]
    simp [calculate_cost_for_user, e0, e1]
    norm_num [pC2m]
  · simp [pC2m]

/-- C2 amended: a sentinel allowance yields zero overage for every
consumption at most 999999: with the data allowance at the sentinel and
data_gb ≤ 999999 the call returns the fee plus only the minutes term, and
with the minutes allowance at the sentinel, minutes ≤ 999999 and no
positive data overage (which would raise TypeError) the call returns the
fee plus only the data term.  Beyond the sentinel the allowance is not
infinite: the minutes side bills the excess over 999999 and the data side
raises TypeError, as the counterexample shows. -/
theorem claim2_amended (p : TariffPlan) (d m : ℚ) :
    (p.data_volume = 999999 → d ≤ 999999 →
      calculate_cost_for_user p d m
        = Except.ok (p.monthly_fee
            + max 0 (m - p.minutes_volume) * p.overage_minute_price))
    ∧ (p.minutes_volume = 999999 → m ≤ 999999 → d ≤ p.data_volume →
      calculate_cost_for_user p d m
        = Except.ok (p.monthly_fee
            + max 0 (d - p.data_volume) * p.overage_data_price)) := by
  constructor
  · intro h1 h2
    have e : max (0 : ℚ) (d - p.data_volume) = 0 := max_eq_left (by rw [h1]; linarith)
    simp [calculate_cost_for_user, e]
  · intro h1 h2 h3
    have e : max (0 : ℚ) (d - p.data_volume) = 0 := max_eq_left (by linarith)
    have e2 : max (0 : ℚ) (m - p.minutes_volume) = 0 := max_eq_left (by rw [h1]; linarith)
    simp [calculate_cost_for_user, e, e2]

/-- Witness for claim2_amended at the plan pC2 and input (5, 0). -/
theorem claim2_witness :
    pC2.data_volume = 999999
    ∧ (5 : ℚ) ≤ 999999
    ∧ calculate_cost_for_user pC2 5 0
        = Except.ok (pC2.monthly_fee
            + max 0 ((0 : ℚ) - pC2.minutes_volume) * pC2.overage_minute_price) := by
  exact ⟨rfl, by norm_num, (claim2_amended pC2 5 0).1 rfl (by norm_num)⟩

/-- C10 counterexample: for the plan p1, whose overage prices are
non-negative, the call at (12, 0) raises TypeError: no total at all is
returned, so the claim that calculate_cost_for_user returns a total at
least the fee for every consumption input fails on the inputs with
positive data overage. -/
theorem claim10_counterexample :
    (0 : ℚ) ≤ p1.overage_data_price
    ∧ (0 : ℚ) ≤ p1.overage_minute_price
    ∧ calculate_cost_for_user p1 12 0 = Except.error PyNumError.typeError := by
  refine ⟨by norm_num [p1], by norm_num [p1], ?_⟩
  have e1 : max (0 : ℚ) ((12 : ℚ) - p1.data_volume) = 2 := by norm_num [p1]
  have hpos : (0 : ℚ) < max 0 ((12 : ℚ) - p1.data_volume) := by rw [e1]; norm_num
  simp only [calculate_cost_for_user]
  rw [if_pos hpos]

/-- C10 amended: whenever calculate_cost_for_user returns a value — its
non-raising inputs, those without positive data overage — and both overage
prices are non-negative, that value is at least the monthly fee: the
overage terms can never reduce the cost below the base fee.  On the other
inputs the method raises TypeError and returns nothing. -/
theorem claim10_cost_ge_fee (p : TariffPlan) (d m v : ℚ)
    (_h1 : 0 ≤ p.overage_data_price) (h2 : 0 ≤ p.overage_minute_price)
    (hok : calculate_cost_for_user p d m = Except.ok v) :
    p.monthly_fee ≤ v := by
  simp only [calculate_cost_for_user] at hok
  by_cases hcr : (0 : ℚ) < max 0 (d - p.data_volume)
  · rw [if_pos hcr] at hok
    exact absurd hok (by simp)
  · rw [if_neg hcr] at hok
    have hmax : max (0 : ℚ) (d - p.data_volume) = 0 :=
      le_antisymm (not_lt.mp hcr) (le_max_left _ _)
    have a2 : (0 : ℚ) ≤ max 0 (m - p.minutes_volume) := le_max_left _ _
    have m2 := mul_nonneg a2 h2
    simp only [Except.ok.injEq] at hok
    rw [← hok, hmax, zero_mul]
    linarith

/-- Witness for claim10_cost_ge_fee at the sample plan p1 and input
(5, 900), where the method returns the total 2400. -/
theorem claim10_witness :
    (0 : ℚ) ≤ p1.overage_data_price
    ∧ (0 : ℚ) ≤ p1.overage_minute_price
    ∧ calculate_cost_for_user p1 5 900 = Except.ok 2400
    ∧ p1.monthly_fee ≤ (2400 : ℚ) := by
  have h1 : (0 : ℚ) ≤ p1.overage_data_price := by norm_num [p1]
  have h2 : (0 : ℚ) ≤ p1.overage_minute_price := by norm_num [p1]
  have e : max (0 : ℚ) ((5 : ℚ) - p1.data_volume) = 0 := by
    apply max_eq_left; norm_num [p1]
  have e2 : max (0 : ℚ) ((900 : ℚ) - p1.minutes_volume) = 700 := by norm_num [p1]
  have hok : calculate_cost_for_user p1 5 900 = Except.ok 2400 := by
    simp [calculate_cost_for_user, e, e2]
    norm_num [p1]
  exact ⟨h1, h2, hok, claim10_cost_ge_fee p1 5 900 2400 h1 h2 hok⟩

/-- C4 counterexample: on a response whose marker script is missing,
parse_beeline returns the error string of line 287, which is not the empty
sequence the claim requires for every adapter on every failure. -/
theorem claim4_counterexample :
    parse_beeline { fetchFails := false, scriptFound := false, jsonFound := false }
      = AdapterResult.errString "Скрипт с тарифами не найден"
    ∧ AdapterResult.errString "Скрипт с тарифами не найден"
        ≠ AdapterResult.records [] := by
  exact ⟨rfl, by simp⟩

/-- C4 amended: no adapter propagates an exception (each adapter function is
total and returns an AdapterResult); parse_mts, parse_megafon and parse_t2
return the empty sequence on every failure; parse_beeline returns the empty
sequence when the fetch raises, but returns a diagnostic STRING, not a
sequence, when the located structure or its JSON is missing. -/
theorem claim4_amended :
    (∀ b : Bool, parse_megafon b = AdapterResult.records [])
    ∧ (∀ b : Bool, parse_t2 b = AdapterResult.records [])
    ∧ (∀ i : MtsInput, i.fetchFails = true → parse_mts i = AdapterResult.records [])
    ∧ (∀ i : BeelineInput, i.fetchFails = true →
        parse_beeline i = AdapterResult.records [])
    ∧ (∀ i : BeelineInput, i.fetchFails = false → i.scriptFound = false →
        parse_beeline i = AdapterResult.errString "Скрипт с тарифами не найден")
    ∧ (∀ i : BeelineInput, parse_beeline i = AdapterResult.records []
        ∨ ∃ msg, parse_beeline i = AdapterResult.errString msg) := by
  refine ⟨fun _ => rfl, fun _ => rfl, ?_, ?_, ?_, ?_⟩
  · intro i h
    simp [parse_mts, h]
  · intro i h
    simp [parse_beeline, h]
  · intro i h1 h2
    simp [parse_beeline, h1, h2]
  · intro i
    rcases i with ⟨f, s, j⟩
    cases f <;> cases s <;> cases j <;> simp [parse_beeline]

/-- Witness for claim4_amended: the hypothesised conjuncts instantiated at
concrete fetch outcomes. -/
theorem claim4_witness :
    (({ fetchFails := true, cards := [] } : MtsInput).fetchFails = true
    ∧ parse_mts { fetchFails := true, cards := [] } = AdapterResult.records [])
    ∧ (({ fetchFails := true, scriptFound := true, jsonFound := true } : BeelineInput).fetchFails = true
    ∧ parse_beeline { fetchFails := true, scriptFound := true, jsonFound := true }
        = AdapterResult.records []) := by
  exact ⟨⟨rfl, claim4_amended.2.2.1 { fetchFails := true, cards := [] } rfl⟩,
    ⟨rfl, claim4_amended.2.2.2.1 { fetchFails := true, scriptFound := true, jsonFound := true } rfl⟩⟩

/-- C5: the claim is right about the intended mapping but the code drops it.
On a successful MTS fetch with one well-formed card, parse_mts returns the
empty list, not a list containing the card's record: the loop at lines
199-211 builds the record but never appends it.  And parse_beeline can never
return a non-empty record list at all, because line 297 uses the never
imported json module, so every run ends in an error string or the empty
list of the except clause. -/
theorem claim5_mts_drops_cards :
    parse_mts { fetchFails := false, cards := [demoCard] } = AdapterResult.records []
    ∧ parse_mts { fetchFails := false, cards := [demoCard] }
        ≠ AdapterResult.records [mtsRecordOf demoCard]
    ∧ (∀ (i : BeelineInput) (ts : List RawTariff),
        parse_beeline i = AdapterResult.records ts → ts = []) := by
  refine ⟨rfl, ?_, ?_⟩
  · rw [show parse_mts { fetchFails := false, cards := [demoCard] }
        = AdapterResult.records [] from rfl]
    simp
  · intro i ts h
    rcases i with ⟨f, s, j⟩
    cases f <;> cases s <;> cases j <;> simp_all [parse_beeline]

/-- Witness for claim5_mts_drops_cards: the beeline conjunct instantiated at
a concrete failing fetch. -/
theorem claim5_witness :
    parse_beeline { fetchFails := true, scriptFound := false, jsonFound := false }
      = AdapterResult.records []
    ∧ ([] : List RawTariff) = [] := by
  exact ⟨rfl,
    claim5_mts_drops_cards.2.2 { fetchFails := true, scriptFound := false, jsonFound := false } [] rfl⟩

/-- C6: an operator whose parse or save raises is skipped without affecting
the store or the processing of the remaining operators (the loop equality),
and a batch in which every operator fails still terminates with the store
unchanged and the aggregate summary count 0. -/
theorem claim6_fault_isolation (dry : Bool) (ok : RawTariff → Bool) (db : DB)
    (nm : String) (rest : List OpJob) (ops : List OpJob)
    (hall : ops.all (fun o => o.fetch.isNone) = true) :
    runOpsCount dry ok db ({ name := nm, fetch := none } :: rest)
      = runOpsCount dry ok db rest
    ∧ runOpsCount dry ok db ops = (db, 0) := by
  constructor
  · rfl
  · induction ops with
    | nil => rfl
    | cons op rest' ih =>
      have h1 : op.fetch.isNone = true ∧ (rest'.all fun o => o.fetch.isNone) = true := by
        simpa [List.all_cons] using hall
      have hf : op.fetch = none := Option.isNone_iff_eq_none.mp h1.1
      show (match op.fetch with
            | none => runOpsCount dry ok db rest'
            | some recs => _) = (db, 0)
      rw [hf]
      exact ih h1.2

/-- Witness for claim6_fault_isolation on a two-operator all-failing batch. -/
theorem claim6_witness :
    ([{ name := "МТС", fetch := none }, { name := "Билайн", fetch := none }]
        : List OpJob).all (fun o => o.fetch.isNone) = true
    ∧ runOpsCount false (fun _ => true) db0
        [{ name := "МТС", fetch := none }, { name := "Билайн", fetch := none }]
        = (db0, 0) := by
  exact ⟨rfl,
    (claim6_fault_isolation false (fun _ => true) db0 "МТС" []
      [{ name := "МТС", fetch := none }, { name := "Билайн", fetch := none }] rfl).2⟩

/-- C7: reconciliation is idempotent: running the save loop a second time
with the identical record list, starting from the store the first run
produced, yields exactly the same store (same rows, same field values; the
store is keyed by (operator, name), so no duplicates can arise) and the same
saved count. -/
theorem claim7_idempotent (ok : RawTariff → Bool) (op : String) (db : DB)
    (rs : List RawTariff) :
    saveLoop ok op (saveLoop ok op db rs).1 rs = saveLoop ok op db rs := by
  have h1 : (saveLoop ok op (saveLoop ok op db rs).1 rs).1 = (saveLoop ok op db rs).1 := by
    funext k
    rw [saveLoop_lookup ok op rs _ k]
    cases hls : lastSaved ok op k rs with
    | some f =>
      rw [saveLoop_lookup ok op rs db k, hls]
    | none =>
      rw [saveLoop_lookup ok op rs db k, hls]
  have h2 : (saveLoop ok op (saveLoop ok op db rs).1 rs).2 = (saveLoop ok op db rs).2 := by
    rw [saveLoop_count, saveLoop_count]
  exact Prod.ext_iff.mpr ⟨h1, h2⟩

/-- C9 counterexample: with dry-run and clear both set, the stored row of
db0 is deleted by the run: a persistent state change occurs during a dry
run, contradicting the claim for the clear-existing-before-run combination. -/
theorem claim9_counterexample :
    handleDB optsDryClear (fun _ => true) db0 [] ("МТС", "Smart") = none
    ∧ db0 ("МТС", "Smart") = some f0 := by
  exact ⟨rfl, by simp [db0]⟩

/-- C9 amended: with dry-run set and clear NOT set, no row is created,
updated or deleted: the final store is the initial one, whatever the
operator list, filter, and record outcomes.  With clear also set, the
deletion of line 48 still happens, as the counterexample shows. -/
theorem claim9_amended (opts : Options) (ok : RawTariff → Bool) (db : DB)
    (ops : List OpJob) (h1 : opts.dry_run = true) (h2 : opts.clear = false) :
    handleDB opts ok db ops = db := by
  unfold handleDB handleFull
  rw [h1]
  have e : clearStep opts db = db := by simp [clearStep, h2]
  rw [e, runOpsCount_dry_fst]

/-- Witness for claim9_amended with the dry-run-only options on a singleton
batch. -/
theorem claim9_witness :
    optsDryOnly.dry_run = true
    ∧ optsDryOnly.clear = false
    ∧ handleDB optsDryOnly (fun _ => true) db0
        [{ name := "МТС", fetch := some [] }] = db0 := by
  exact ⟨rfl, rfl,
    claim9_amended optsDryOnly (fun _ => true) db0
      [{ name := "МТС", fetch := some [] }] rfl rfl⟩

/-- C8 counterexample: the decimal-like token 1,234.56 uses a comma
thousands separator and a period decimal separator; its correctly parsed
amount is 123456/100, but extract_price replaces the comma by a period,
hands Decimal the malformed 1.234.56, and the except clause returns 0. -/
theorem claim8_counterexample :
    extract_price (("1,234.56").toList) = 0 ∧ (123456 : ℚ) / 100 ≠ 0 := by
  exact ⟨by decide, by norm_num⟩

/-- C8 amended: extract_price always returns a value (it is a total
function; every parse failure is caught); it returns 0 on any string with no
digits; it parses tokens whose separators are consistent — a plain integer,
a period decimal point, a comma decimal point, spaces as thousands
separators — but a token mixing comma and period separators yields 0 rather
than its correctly parsed amount. -/
theorem claim8_amended :
    (∀ t : List Char, t.all (fun c => !(isDigitCh c)) = true → extract_price t = 0)
    ∧ extract_price (("400 ₽").toList) = 400
    ∧ extract_price (("150 руб/ГБ").toList) = 150
    ∧ extract_price (("2.5 руб/мин").toList) = 5/2
    ∧ extract_price (("1 000,50 руб").toList) = 2001/2
    ∧ extract_price (("1,234.56").toList) = 0 := by
  refine ⟨?_, by decide, by decide, ?_, ?_, by decide⟩
  · intro t hall
    have h : ∀ c ∈ t, isDigitCh c = false := by
      intro c hc
      have := List.all_eq_true.mp hall c hc
      simpa using this
    unfold extract_price
    rw [scanPrice_none t h]
  · rw [show extract_price (("2.5 руб/мин").toList)
        = ((2 : ℕ) : ℚ) + ((5 : ℕ) : ℚ) / (10 : ℚ) ^ (1 : ℕ) from rfl]
    norm_num
  · rw [show extract_price (("1 000,50 руб").toList)
        = ((1000 : ℕ) : ℚ) + ((50 : ℕ) : ℚ) / (10 : ℚ) ^ (2 : ℕ) from rfl]
    norm_num

/-- Witness for claim8_amended: the digit-free conjunct at the concrete
string руб. -/
theorem claim8_witness :
    (("руб").toList).all (fun c => !(isDigitCh c)) = true
    ∧ extract_price (("руб").toList) = 0 := by
  exact ⟨by decide, claim8_amended.1 (("руб").toList) (by decide)⟩

/-- C3 counterexample: the unlimited phrase безлимит on its own maps to 0,
not the sentinel 999999: pattern 1 of extract_data_gb is the literal
безлимит гб, which this text does not contain, and the pattern that was
meant to be the standalone неограничен is fused by the missing comma of
line 149 into a pattern that additionally requires digits and a GB unit. -/
theorem claim3_counterexample :
    extract_data_gb (("безлимит").toList) = 0 ∧ (0 : ℚ) ≠ 999999 := by
  exact ⟨by decide, by norm_num⟩

/-- C3 amended: for every nonempty digit run d, extract_data_gb parses
d гб to its value and d тб to 1000 times its value; 15 ГБ gives 15.0,
2 ТБ gives 2000.0, the empty string gives 0.0; but the unlimited phrases
on their own give 0.0 — безлимит alone and неограничен alone both map to
0, and the sentinel 999999 is produced only when a pattern matches and the
text contains безлимит гб or неограничен (for instance безлимит гб). -/
theorem claim3_amended :
    (∀ d : List Char, d.all isDigitCh = true → d.isEmpty = false →
      extract_data_gb (d ++ gbSuffix) = (digitsToNat d : ℚ)
      ∧ extract_data_gb (d ++ tbSuffix) = (digitsToNat d : ℚ) * 1000)
    ∧ extract_data_gb (("15 ГБ").toList) = 15
    ∧ extract_data_gb (("2 ТБ").toList) = 2000
    ∧ extract_data_gb (("").toList) = 0
    ∧ extract_data_gb (("безлимит").toList) = 0
    ∧ extract_data_gb (("неограничен").toList) = 0
    ∧ extract_data_gb (("безлимит гб").toList) = 999999 := by
  refine ⟨?_, ?_, ?_, by decide, by decide, by decide, by decide⟩
  · intro d hall hne'
    have hd : ∀ c ∈ d, isDigitCh c = true := fun c hc => List.all_eq_true.mp hall c hc
    have hne : d ≠ [] := by
      cases d with
      | nil => exact absurd hne' (by simp)
      | cons c t => simp
    constructor
    · -- the GB case
      have hpre : preprocess (d ++ gbSuffix) = d ++ gbSuffix :=
        preprocess_digits_append d gbSuffix hd (by decide) (by decide) (by decide)
      have hb : listHasSubstr bezlimitGb (d ++ gbSuffix) = false := by
        rw [show bezlimitGb = 'б' :: (("езлимит гб").toList) from rfl,
          hasSubstr_digits_append 'б' _ (by decide) d gbSuffix hd]
        decide
      have hn : listHasSubstr neogr (d ++ gbSuffix) = false := by
        rw [show neogr = 'н' :: (("еограничен").toList) from rfl,
          hasSubstr_digits_append 'н' _ (by decide) d gbSuffix hd]
        decide
      have hp2 : scanP2 (d ++ gbSuffix) = false := by
        rw [scanP2_digits_append d gbSuffix hd]
        decide
      have hscan : scanNumUnits [gbU] (d ++ gbSuffix) = some d :=
        scanNumUnits_append_hit [gbU] d gbSuffix hd hne (by decide) (by decide)
      have hnum : numParse (replaceCh (',') ('.') d) = some ((digitsToNat d : ℚ)) := by
        rw [replaceCh_digits d hd]
        exact numParse_digits d hd hne
      simp only [extract_data_gb, hpre, hb, hp2, hscan, hnum, hn]
      simp
    · -- the TB case
      have hpre : preprocess (d ++ tbSuffix) = d ++ tbSuffix :=
        preprocess_digits_append d tbSuffix hd (by decide) (by decide) (by decide)
      have hb : listHasSubstr bezlimitGb (d ++ tbSuffix) = false := by
        rw [show bezlimitGb = 'б' :: (("езлимит гб").toList) from rfl,
          hasSubstr_digits_append 'б' _ (by decide) d tbSuffix hd]
        decide
      have hn : listHasSubstr neogr (d ++ tbSuffix) = false := by
        rw [show neogr = 'н' :: (("еограничен").toList) from rfl,
          hasSubstr_digits_append 'н' _ (by decide) d tbSuffix hd]
        decide
      have hp2 : scanP2 (d ++ tbSuffix) = false := by
        rw [scanP2_digits_append d tbSuffix hd]
        decide
      have hscan3 : scanNumUnits [gbU] (d ++ tbSuffix) = none := by
        rw [scanNumUnits_append_miss [gbU] d tbSuffix hd (by decide) (by decide)]
        decide
      have hscan4 : scanNumUnits [tbU] (d ++ tbSuffix) = some d :=
        scanNumUnits_append_hit [tbU] d tbSuffix hd hne (by decide) (by decide)
      have htb : listHasSubstr tbU (d ++ tbSuffix) = true := by
        rw [show tbU = 'т' :: (("б").toList) from rfl,
          hasSubstr_digits_append 'т' _ (by decide) d tbSuffix hd]
        decide
      have hnum : numParse (replaceCh (',') ('.') d) = some ((digitsToNat d : ℚ)) := by
        rw [replaceCh_digits d hd]
        exact numParse_digits d hd hne
      simp only [extract_data_gb, dataP4, hpre, hb, hp2, hscan3, hscan4, htb, hnum, hn]
      simp
  · rw [show extract_data_gb (("15 ГБ").toList) = ((15 : ℕ) : ℚ) * 1 from rfl]
    norm_num
  · rw [show extract_data_gb (("2 ТБ").toList) = ((2 : ℕ) : ℚ) * 1000 from rfl]
    norm_num

/-- Witness for claim3_amended: the general conjunct at the digit run 42. -/
theorem claim3_witness :
    (['4', '2'].all isDigitCh = true)
    ∧ (['4', '2'].isEmpty = false)
    ∧ extract_data_gb (['4', '2'] ++ gbSuffix) = (digitsToNat ['4', '2'] : ℚ) := by
  exact ⟨by decide, by decide,
    ((claim3_amended.1 ['4', '2'] (by decide) (by decide)).1)⟩
